import Mathlib

/-!
Formal model of the flash-toggle window-search core.

The definitions below are a shallow embedding of the Python sources
`window_search/window_index.py`, `window_search/window_history.py`,
`window_search/window_actions.py` and `window_search/search_window.py`:

* `WindowInfo` embeds the `WindowInfo` dataclass (timestamps as `Nat`).
* `scanStep` / `scanWindows` embed `WindowIndexManager._scan_windows`'s
  `enum_windows_callback` folded over the OS enumeration; the per-window
  OS observations (style bits, title, class name, process lookup result,
  virtual-desktop lookup result) are packaged in `OsWin`, with fallible
  OS calls modelled as `Option` results.
* `isValidWindow` embeds `WindowIndexManager._is_valid_window`.
* `searchWindows` embeds `WindowIndexManager.search_windows`, with the
  `pinyin.get` transliteration kept abstract as a function parameter.
* `HistState`, `recordWindowActivation`, `jumpToPrevious`, `jumpToNext`
  embed `WindowHistoryManager`; Python `deque` indexing (with negative
  indices and `IndexError`) is `dequeGet`, returning `Except`.
* `editWindowTags` embeds `window_actions.edit_window_tags`, with Python
  attribute lookup modelled against the attribute tables transcribed
  from the sources.
* `openTagInputDialog` embeds `SearchWindow._open_tag_input_dialog`.
-/

namespace FlashToggle

/-- Embeds the `WindowInfo` dataclass of `window_index.py`
(`last_active` timestamps are modelled as `Nat`). -/
structure WindowInfo where
  hwnd : Nat
  title : String
  process_id : Nat
  process_name : String
  desktop_id : Option String
  is_visible : Bool
  is_minimized : Bool
  last_active : Nat
  tags : String := ""
deriving DecidableEq

/-- One OS top-level window as observed by a scan cycle: the values the
win32 calls in `enum_windows_callback` / `_is_valid_window` would return
for it.  Fallible calls (`psutil.Process(...).name()`, the virtual
desktop bridge) are `Option` results, `none` meaning failure. -/
structure OsWin where
  hwnd : Nat
  is_window_visible : Bool
  style_visible : Bool
  style_minimized : Bool
  style_popup : Bool
  title : String
  class_name : String
  process_id : Nat
  process_name_res : Option String
  desktop_id_res : Option String
deriving DecidableEq

/-- Python `str.strip()`: drop leading and trailing whitespace. -/
def pyStrip (s : String) : String :=
  ⟨((s.data.dropWhile Char.isWhitespace).reverse.dropWhile Char.isWhitespace).reverse⟩

/-- Python `str.lower()`, modelled characterwise. -/
def pyLower (s : String) : String :=
  ⟨s.data.map Char.toLower⟩

/-- The excluded window classes of `_is_valid_window`. -/
def excludedClasses : List String :=
  ["Windows.UI.Core.CoreWindow",
   "ApplicationFrameWindow",
   "Windows.UI.Composition.DesktopWindowContentBridge",
   "Shell_TrayWnd",
   "Progman",
   "WorkerW"]

/-- Embeds `WindowIndexManager._is_valid_window`: visible, non-empty
trimmed title, non-empty class name not in the exclusion set,
`WS_VISIBLE` style bit set, and not a `WS_POPUP` window. -/
def isValidWindow (w : OsWin) : Bool :=
  if !w.is_window_visible then false
  else if pyStrip w.title == "" then false
  else if w.class_name == "" then false
  else if excludedClasses.contains w.class_name then false
  else if !w.style_visible then false
  else if w.style_popup then false
  else true

/-- The window cache `self._windows : Dict[int, WindowInfo]`, modelled
as an insertion-ordered association list (as Python dicts are). -/
abbrev WDict := List (Nat × WindowInfo)

/-- Python `self._windows[hwnd]` / `hwnd in self._windows`. -/
def wlookup (m : WDict) (k : Nat) : Option WindowInfo :=
  match m with
  | [] => none
  | (k', v) :: rest => if k' = k then some v else wlookup rest k

/-- In-place update of the record stored under a key (Python mutates the
existing `WindowInfo` object, so the dict position is unchanged). -/
def updateAt (m : WDict) (k : Nat) (f : WindowInfo → WindowInfo) : WDict :=
  match m with
  | [] => []
  | (k', v) :: rest => (k', if k' = k then f v else v) :: updateAt rest k f

/-- Embeds one invocation of `enum_windows_callback` inside
`WindowIndexManager._scan_windows`: skip if the `WS_VISIBLE` style bit
is clear, skip if the title is the empty string, resolve the process
name best-effort (`"未知进程"` on failure), skip if the virtual desktop
manager fails to initialise or the desktop id resolves to nothing, then
merge: refresh the scan-derived fields of an existing record in place,
or insert a fresh record with empty `tags`. -/
def scanStep (vdInit : Bool) (now : Nat) (m : WDict) (w : OsWin) : WDict :=
  if !w.style_visible then m
  else if w.title == "" then m
  else
    let pname := w.process_name_res.getD "未知进程"
    if !vdInit then m
    else
      match w.desktop_id_res with
      | none => m
      | some did =>
        if did == "" then m
        else if (wlookup m w.hwnd).isSome then
          updateAt m w.hwnd (fun e =>
            { e with
              title := w.title
              process_id := w.process_id
              process_name := pname
              desktop_id := some did
              is_visible := w.style_visible
              is_minimized := w.style_minimized
              last_active := now })
        else
          m ++ [(w.hwnd,
            { hwnd := w.hwnd
              title := w.title
              process_id := w.process_id
              process_name := pname
              desktop_id := some did
              is_visible := w.style_visible
              is_minimized := w.style_minimized
              last_active := now
              tags := "" })]

/-- Embeds `WindowIndexManager._scan_windows`: `win32gui.EnumWindows`
folds the callback over the OS enumeration.  No entry of the cache is
ever deleted by the scan. -/
def scanWindows (vdInit : Bool) (now : Nat) (enum : List OsWin) (m : WDict) : WDict :=
  enum.foldl (scanStep vdInit now) m

/-- Embeds `WindowIndexManager.get_all_windows`:
`list(self._windows.values())`. -/
def getAllWindows (m : WDict) : List WindowInfo :=
  m.map Prod.snd

/-- The admission predicate actually applied by `enum_windows_callback`
to a handle not yet in the index: `WS_VISIBLE` style bit set, non-empty
(untrimmed) title, virtual desktop manager initialised, and a non-empty
desktop id resolved. -/
def callbackAdmits (vdInit : Bool) (w : OsWin) : Bool :=
  w.style_visible && !(w.title == "") && vdInit &&
    (match w.desktop_id_res with
     | some did => !(did == "")
     | none => false)

/-- Embeds the ephemeral result records of
`WindowIndexManager.search_windows`:
`{'window': window, 'match_count': match_count}`. -/
structure SearchResult where
  window : WindowInfo
  match_count : Nat
deriving DecidableEq

/-- Whether the first character list starts the second. -/
def charsStart : List Char → List Char → Bool
  | [], _ => true
  | _ :: _, [] => false
  | a :: as, b :: bs => a == b && charsStart as bs

/-- Whether the first character list occurs contiguously in the second. -/
def charsSub (needle : List Char) : List Char → Bool
  | [] => needle.isEmpty
  | b :: bs => charsStart needle (b :: bs) || charsSub needle bs

/-- Python `needle in hay` on strings: contiguous substring test. -/
def strContains (hay needle : String) : Bool :=
  charsSub needle.data hay.data

/-- The inner test of `search_windows` applied to one already-lowered
keyword: `keyword.lower() in title or keyword.lower() in tags or
keyword.lower() in pinyin_title or keyword.lower() in pinyin_tags`,
where the four candidates are the lowered title, the lowered tags, and
the lowered pinyin transliterations of the lowered title and tags. -/
def matchesLowered (pinyinGet : String → String) (k : String) (w : WindowInfo) : Bool :=
  let title := pyLower w.title
  let tags := pyLower w.tags
  let pinyin_title := pyLower (pinyinGet title)
  let pinyin_tags := pyLower (pinyinGet tags)
  strContains title (pyLower k) || strContains tags (pyLower k) ||
    strContains pinyin_title (pyLower k) || strContains pinyin_tags (pyLower k)

/-- Whether one keyword of the input list matches a record: the code
first lowers every keyword and then runs the candidate tests on it. -/
def keywordMatches (pinyinGet : String → String) (kw : String) (w : WindowInfo) : Bool :=
  matchesLowered pinyinGet (pyLower kw) w

/-- Embeds `WindowIndexManager.search_windows` applied to a snapshot of
`get_all_windows()`: lower all keywords, count the matching keywords of
every window, and append the windows with a positive count to the
result list.  `pinyin.get(_, format="strip")` is the abstract
`pinyinGet` parameter. -/
def searchWindows (pinyinGet : String → String) (windows : List WindowInfo)
    (keywords : List String) : List SearchResult :=
  let kws := keywords.map pyLower
  windows.foldl
    (fun results w =>
      let match_count :=
        kws.foldl (fun n k => if matchesLowered pinyinGet k w then n + 1 else n) 0
      if match_count > 0 then results ++ [⟨w, match_count⟩] else results)
    []

/-! History manager: `window_history.py`. -/

/-- The state owned by `WindowHistoryManager`: the `deque` of handles
(with its `maxlen`), the cursor `self._current_index : int`, and the
`self._is_jumping` flag. -/
structure HistState where
  history : List Nat
  maxHistory : Nat
  currentIndex : Int
  isJumping : Bool
deriving DecidableEq

/-- Python sequence indexing: a negative index counts from the end, an
index out of `[-len, len)` raises `IndexError`. -/
def pyIndex (len : Nat) (i : Int) : Option Nat :=
  let j := if i < 0 then (len : Int) + i else i
  if 0 ≤ j ∧ j < (len : Int) then some j.toNat else none

/-- `self._history[i]` on a `deque`: `Except.error` is `IndexError`. -/
def dequeGet (l : List Nat) (i : Int) : Except Unit Nat :=
  match pyIndex l.length i with
  | some j =>
    match l[j]? with
    | some x => .ok x
    | none => .error ()
  | none => .error ()

/-- The truncate-and-append tail of `record_window_activation`: pop from
the right while the length exceeds `current_index + 1`, append the new
handle (a full `deque` drops its leftmost entry), and set the cursor to
the new last position. -/
def appendNew (hwnd : Nat) (s : HistState) : HistState :=
  let h1 := s.history.take (s.currentIndex + 1).toNat
  let h2 := if h1.length == s.maxHistory then h1.drop 1 ++ [hwnd] else h1 ++ [hwnd]
  { s with history := h2, currentIndex := (h2.length : Int) - 1 }

/-- Embeds `WindowHistoryManager.record_window_activation`.
`isWindow` is the environment's `win32gui.IsWindow`.  The guard
`self._history and self._history[self._current_index] == hwnd` indexes
the deque at the cursor, which raises `IndexError` when the cursor is
out of range (the `Except.error` case). -/
def recordWindowActivation (isWindow : Nat → Bool) (hwnd : Nat) (s : HistState) :
    Except Unit HistState :=
  if s.isJumping || hwnd == 0 || !isWindow hwnd then .ok s
  else if s.history.isEmpty then .ok (appendNew hwnd s)
  else
    match dequeGet s.history s.currentIndex with
    | .error _ => .error ()
    | .ok cur =>
      if cur == hwnd then .ok s
      else .ok (appendNew hwnd s)

/-- Embeds `WindowHistoryManager._jump_to_window`: re-check
`win32gui.IsWindow` and then attempt the foreground activation
(`_try_set_foreground_window`, the abstract `jumpOk`); the
`_is_jumping` flag is raised and lowered again in `finally`, so the
state is unchanged. -/
def jumpToWindow (isWindow jumpOk : Nat → Bool) (hwnd : Nat) : Bool :=
  isWindow hwnd && jumpOk hwnd

/-- Recursion core of `jump_to_previous`; the fuel only bounds the
recursion depth (every recursive call follows a removal from the
history, so `history.length + 1` fuel is never exhausted). -/
def jumpToPreviousAux (isWindow jumpOk : Nat → Bool) :
    Nat → HistState → Except Unit (Bool × HistState)
  | 0, _ => .error ()
  | fuel + 1, s =>
    if s.history.isEmpty || s.currentIndex ≤ 0 then .ok (false, s)
    else
      let c := s.currentIndex - 1
      match dequeGet s.history c with
      | .error _ => .error ()
      | .ok hwnd =>
        if !isWindow hwnd then
          let h' := s.history.erase hwnd
          let c' := if (h'.length : Int) ≤ c then (h'.length : Int) - 1 else c
          let s' : HistState := { s with history := h', currentIndex := c' }
          if h'.isEmpty then .ok (false, s')
          else jumpToPreviousAux isWindow jumpOk fuel s'
        else
          let s' : HistState := { s with currentIndex := c }
          if jumpToWindow isWindow jumpOk hwnd then .ok (true, s') else .ok (false, s')

/-- Embeds `WindowHistoryManager.jump_to_previous`: fail on an empty
history or a cursor at 0; otherwise decrement the cursor and read the
handle there; a dead handle is removed (`deque.remove` drops the first
occurrence), the cursor re-clamped to the last index when it fell off
the end, and the operation retried; a live handle is activated. -/
def jumpToPrevious (isWindow jumpOk : Nat → Bool) (s : HistState) :
    Except Unit (Bool × HistState) :=
  jumpToPreviousAux isWindow jumpOk (s.history.length + 1) s

/-- Recursion core of `jump_to_next`; same fuel policy as
`jumpToPreviousAux`.  Note: after removing a dead handle the code does
NOT re-clamp the cursor before retrying. -/
def jumpToNextAux (isWindow jumpOk : Nat → Bool) :
    Nat → HistState → Except Unit (Bool × HistState)
  | 0, _ => .error ()
  | fuel + 1, s =>
    if s.history.isEmpty || s.currentIndex ≥ (s.history.length : Int) - 1 then .ok (false, s)
    else
      let c := s.currentIndex + 1
      match dequeGet s.history c with
      | .error _ => .error ()
      | .ok hwnd =>
        if !isWindow hwnd then
          let h' := s.history.erase hwnd
          let s' : HistState := { s with history := h', currentIndex := c }
          if h'.isEmpty then .ok (false, s')
          else jumpToNextAux isWindow jumpOk fuel s'
        else
          let s' : HistState := { s with currentIndex := c }
          if jumpToWindow isWindow jumpOk hwnd then .ok (true, s') else .ok (false, s')

/-- Embeds `WindowHistoryManager.jump_to_next`: fail on an empty
history or a cursor already at the last index; otherwise increment the
cursor and read the handle there; a dead handle is removed and the
operation retried (without re-clamping the cursor); a live handle is
activated. -/
def jumpToNext (isWindow jumpOk : Nat → Bool) (s : HistState) :
    Except Unit (Bool × HistState) :=
  jumpToNextAux isWindow jumpOk (s.history.length + 1) s

/-! Tag editing: `window_actions.py` and `search_window.py`. -/

/-- The attribute names of the `WindowInfo` dataclass, transcribed from
`window_index.py`. -/
def windowInfoFieldNames : List String :=
  ["hwnd", "title", "process_id", "process_name", "desktop_id",
   "is_visible", "is_minimized", "last_active", "tags"]

/-- The attribute names defined on `WindowIndexManager`, transcribed
from `window_index.py`. -/
def windowIndexManagerAttrs : List String :=
  ["__init__", "_is_valid_window", "_scan_windows", "_scan_loop",
   "get_all_windows", "search_windows", "stop", "update_window_activity",
   "_logger", "_virtual_desktop", "_config_manager", "_scan_interval",
   "_windows", "_lock", "_scan_thread", "_running"]

/-- Python attribute lookup against a table of attribute names:
`Except.error` is `AttributeError`. -/
def pyGetattr (attrs : List String) (name : String) : Except Unit Unit :=
  if attrs.contains name then .ok () else .error ()

/-- The body of the `try` block of `window_actions.edit_window_tags`
after the dialog returned `(tags, ok)`: when confirmed it evaluates
`window.handle` and `window_index.update_window_tags`, each a Python
attribute lookup that raises `AttributeError` when the attribute does
not exist on the object. -/
def editWindowTagsBody (okDialog : Bool) : Except Unit Bool :=
  if okDialog then do
    let _ ← pyGetattr windowInfoFieldNames "handle"
    let _ ← pyGetattr windowIndexManagerAttrs "update_window_tags"
    .ok true
  else .ok false

/-- Embeds `window_actions.edit_window_tags`: the surrounding
`try/except` turns any exception into a logged `False`. -/
def editWindowTags (okDialog : Bool) : Bool :=
  match editWindowTagsBody okDialog with
  | .ok b => b
  | .error _ => false

/-- Embeds the effect of `SearchWindow._open_tag_input_dialog` on the
selected record: the tags are overwritten only when the dialog was
confirmed AND the entered text is non-empty (`if ok and text:`). -/
def openTagInputDialog (w : WindowInfo) (ok : Bool) (text : String) : WindowInfo :=
  if ok && !(text == "") then { w with tags := text } else w

/-! Helper lemmas about the window cache. -/

theorem wlookup_updateAt_self {m : WDict} {k : Nat} {i : WindowInfo}
    (f : WindowInfo → WindowInfo) (h : wlookup m k = some i) :
    wlookup (updateAt m k f) k = some (f i) := by
  induction m with
  | nil => simp [wlookup] at h
  | cons p rest ih =>
    obtain ⟨a, v⟩ := p
    by_cases hk : a = k
    · simp [wlookup, updateAt, hk] at h ⊢
      simp [h]
    · simp [wlookup, updateAt, hk] at h ⊢
      exact ih h

theorem wlookup_updateAt_ne {m : WDict} {k k' : Nat}
    (f : WindowInfo → WindowInfo) (h : k ≠ k') :
    wlookup (updateAt m k f) k' = wlookup m k' := by
  induction m with
  | nil => simp [wlookup, updateAt]
  | cons p rest ih =>
    obtain ⟨a, v⟩ := p
    by_cases hk' : a = k'
    · have hak : ¬ a = k := fun e => h (e.symm.trans hk')
      simp [wlookup, updateAt, hk', hak, Ne.symm h]
    · simp [wlookup, updateAt, hk']
      exact ih

theorem wlookup_append_single_ne {m : WDict} {k k' : Nat} (v : WindowInfo)
    (h : k ≠ k') : wlookup (m ++ [(k, v)]) k' = wlookup m k' := by
  induction m with
  | nil => simp [wlookup, h]
  | cons p rest ih =>
    obtain ⟨a, u⟩ := p
    by_cases hk : a = k'
    · simp [wlookup, hk]
    · simpa [wlookup, hk] using ih

theorem wlookup_append_single_self {m : WDict} {k : Nat} (v : WindowInfo)
    (h : wlookup m k = none) : wlookup (m ++ [(k, v)]) k = some v := by
  induction m with
  | nil => simp [wlookup]
  | cons p rest ih =>
    obtain ⟨a, u⟩ := p
    by_cases hk : a = k
    · simp [wlookup, hk] at h
    · simp [wlookup, hk] at h ⊢
      exact ih h

theorem wlookup_mem_getAll {m : WDict} {k : Nat} {i : WindowInfo}
    (h : wlookup m k = some i) : i ∈ getAllWindows m := by
  induction m with
  | nil => simp [wlookup] at h
  | cons p rest ih =>
    obtain ⟨a, v⟩ := p
    by_cases hk : a = k
    · simp [wlookup, hk] at h
      simp [getAllWindows, h]
    · simp [wlookup, hk] at h
      simp [getAllWindows]
      right
      simpa [getAllWindows] using ih h

theorem scanStep_lookup_ne (vdInit : Bool) (now : Nat) (m : WDict) (w : OsWin)
    {h : Nat} (hne : w.hwnd ≠ h) :
    wlookup (scanStep vdInit now m w) h = wlookup m h := by
  unfold scanStep
  split
  · rfl
  · split
    · rfl
    · split
      · rfl
      · split
        · rfl
        · split
          · rfl
          · split
            · exact wlookup_updateAt_ne _ hne
            · exact wlookup_append_single_ne _ hne

theorem scanWindows_lookup_not_enum (vdInit : Bool) (now : Nat)
    (enum : List OsWin) (m : WDict) {h : Nat}
    (habs : h ∉ enum.map OsWin.hwnd) :
    wlookup (scanWindows vdInit now enum m) h = wlookup m h := by
  induction enum generalizing m with
  | nil => rfl
  | cons w rest ih =>
    simp only [List.map_cons, List.mem_cons, not_or] at habs
    have step := scanStep_lookup_ne vdInit now m w (fun e => habs.1 e.symm)
    calc wlookup (scanWindows vdInit now (w :: rest) m) h
        = wlookup (scanWindows vdInit now rest (scanStep vdInit now m w)) h := rfl
      _ = wlookup (scanStep vdInit now m w) h := ih _ habs.2
      _ = wlookup m h := step

/-! Claim theorems about the window index. -/

/-- C1 counterexample: handle 1 is in the index before a scan whose
enumeration is empty (so handle 1 is absent from it), yet after the
scan the handle is still in the index and its record still appears in
`get_all_windows` — `_scan_windows` never removes anything. -/
theorem scan_keeps_stale_handle :
    wlookup (scanWindows true 10 []
        [(1, ⟨1, "Chrome", 4, "chrome.exe", some "d1", true, false, 5, "work"⟩)]) 1 =
      some ⟨1, "Chrome", 4, "chrome.exe", some "d1", true, false, 5, "work"⟩
    ∧ (⟨1, "Chrome", 4, "chrome.exe", some "d1", true, false, 5, "work"⟩ : WindowInfo) ∈
        getAllWindows (scanWindows true 10 []
          [(1, ⟨1, "Chrome", 4, "chrome.exe", some "d1", true, false, 5, "work"⟩)]) := by
  exact ⟨rfl, by decide⟩

/-- C1 (amended): a scan cycle never removes an entry from the index: a
handle present before the scan whose enumeration does not contain it
keeps its record unchanged, and the record still appears in
`get_all_windows` after the scan. -/
theorem scan_never_removes (vdInit : Bool) (now : Nat) (enum : List OsWin)
    (m : WDict) (h : Nat) (i : WindowInfo)
    (habs : h ∉ enum.map OsWin.hwnd) (hbefore : wlookup m h = some i) :
    wlookup (scanWindows vdInit now enum m) h = some i
    ∧ i ∈ getAllWindows (scanWindows vdInit now enum m) := by
  have hs := scanWindows_lookup_not_enum vdInit now enum m habs
  exact ⟨hs.trans hbefore, wlookup_mem_getAll (hs.trans hbefore)⟩

/-- Witness for `scan_never_removes` at a concrete index state and a
concrete enumeration not containing handle 1. -/
theorem scan_never_removes_witness :
    wlookup (scanWindows true 10
        [⟨2, true, true, false, false, "Other", "SomeClass", 3, some "p.exe", some "d2"⟩]
        [(1, ⟨1, "Chrome", 4, "chrome.exe", some "d1", true, false, 5, "work"⟩)]) 1 =
      some ⟨1, "Chrome", 4, "chrome.exe", some "d1", true, false, 5, "work"⟩
    ∧ (⟨1, "Chrome", 4, "chrome.exe", some "d1", true, false, 5, "work"⟩ : WindowInfo) ∈
        getAllWindows (scanWindows true 10
          [⟨2, true, true, false, false, "Other", "SomeClass", 3, some "p.exe", some "d2"⟩]
          [(1, ⟨1, "Chrome", 4, "chrome.exe", some "d1", true, false, 5, "work"⟩)]) := by
  exact scan_never_removes true 10
    [⟨2, true, true, false, false, "Other", "SomeClass", 3, some "p.exe", some "d2"⟩]
    [(1, ⟨1, "Chrome", 4, "chrome.exe", some "d1", true, false, 5, "work"⟩)] 1
    ⟨1, "Chrome", 4, "chrome.exe", some "d1", true, false, 5, "work"⟩ (by decide) rfl

/-- C2 counterexample: a record with `last_active = 5` whose handle is
enumerated again by a scan at time 10 ends up with `last_active = 10`:
the merge step of `_scan_windows` overwrites `last_active` with the
scan time (while `tags` is indeed preserved). -/
theorem scan_merge_overwrites_last_active :
    wlookup (scanStep true 10
        [(1, ⟨1, "Chrome", 4, "chrome.exe", some "d1", true, false, 5, "work"⟩)]
        ⟨1, true, true, false, false, "Chrome - tab", "Chrome_WidgetWin_1", 4,
          some "chrome.exe", some "d1"⟩) 1 =
      some ⟨1, "Chrome - tab", 4, "chrome.exe", some "d1", true, false, 10, "work"⟩
    ∧ (10 : Nat) ≠ 5 := by
  exact ⟨rfl, by decide⟩

/-- C2 (amended): for a record already in the index whose handle is
enumerated again, the merge step leaves `tags` unchanged while `title`,
`process_id`, `process_name`, `desktop_id`, `is_visible` and
`is_minimized` are refreshed from the scan — and `last_active` is
overwritten with the scan time. -/
theorem scan_merge_preserves_tags (vdInit : Bool) (now : Nat) (m : WDict)
    (w : OsWin) (i : WindowInfo) (did : String)
    (hpre : wlookup m w.hwnd = some i)
    (hvis : w.style_visible = true) (htitle : (w.title == "") = false)
    (hvd : vdInit = true) (hdesk : w.desktop_id_res = some did)
    (hdid : (did == "") = false) :
    wlookup (scanStep vdInit now m w) w.hwnd =
      some { i with
             title := w.title
             process_id := w.process_id
             process_name := w.process_name_res.getD "未知进程"
             desktop_id := some did
             is_visible := w.style_visible
             is_minimized := w.style_minimized
             last_active := now } := by
  unfold scanStep
  simp only [hvis, htitle, hvd, hdesk, hdid, Bool.not_true, Bool.false_eq_true,
    if_false, Bool.not_false, ite_false, ite_true, hpre, Option.isSome_some, if_true]
  exact wlookup_updateAt_self _ hpre

/-- Witness for `scan_merge_preserves_tags` at a concrete record and a
concrete re-enumeration of its handle. -/
theorem scan_merge_preserves_tags_witness :
    wlookup (scanStep true 10
        [(1, ⟨1, "Chrome", 4, "chrome.exe", some "d1", true, false, 5, "work"⟩)]
        ⟨1, true, true, false, false, "Chrome - tab", "Chrome_WidgetWin_1", 4,
          some "chrome.exe", some "d1"⟩) 1 =
      some ⟨1, "Chrome - tab", 4, "chrome.exe", some "d1", true, false, 10, "work"⟩ := by
  simpa using scan_merge_preserves_tags true 10
    [(1, ⟨1, "Chrome", 4, "chrome.exe", some "d1", true, false, 5, "work"⟩)]
    ⟨1, true, true, false, false, "Chrome - tab", "Chrome_WidgetWin_1", 4,
      some "chrome.exe", some "d1"⟩
    ⟨1, "Chrome", 4, "chrome.exe", some "d1", true, false, 5, "work"⟩ "d1"
    rfl rfl rfl rfl rfl rfl

/-- C7 counterexample: a whitespace-titled `WS_POPUP` window of the
excluded class `Progman` fails `_is_valid_window`, yet the scan admits
it into the index: `enum_windows_callback` never calls
`_is_valid_window` and only checks the `WS_VISIBLE` bit, a non-empty
(untrimmed) title, and a resolvable desktop id. -/
theorem scan_admits_invalid_window :
    isValidWindow ⟨5, true, true, false, true, " ", "Progman", 9, some "x.exe", some "d"⟩ = false
    ∧ (wlookup (scanStep true 7 []
        ⟨5, true, true, false, true, " ", "Progman", 9, some "x.exe", some "d"⟩) 5).isSome = true := by
  exact ⟨rfl, rfl⟩

/-- C7 (amended): a handle not yet in the index is admitted by a scan
cycle iff its `WS_VISIBLE` style bit is set, its title is non-empty
(without trimming), the virtual-desktop manager initialises, and a
non-empty desktop id is resolved; the class-exclusion, popup and
title-trimming checks of `_is_valid_window` are not applied. -/
theorem scan_admission_criteria (vdInit : Bool) (now : Nat) (m : WDict)
    (w : OsWin) (hnew : wlookup m w.hwnd = none) :
    (wlookup (scanStep vdInit now m w) w.hwnd).isSome = callbackAdmits vdInit w := by
  unfold scanStep callbackAdmits
  cases hv : w.style_visible
  · simp [hnew]
  · cases ht : (w.title == "")
    · cases hvd : vdInit
      · simp [hnew]
      · cases hd : w.desktop_id_res with
        | none => simp [hnew]
        | some did =>
          cases hdid : (did == "")
          · simp only [Bool.not_true, Bool.false_eq_true, if_false, Bool.not_false,
              ite_true, ite_false, hnew, Option.isSome_none, hdid]
            rw [wlookup_append_single_self _ hnew]
            rfl
          · simp [hnew, hdid]
    · simp [hnew, ht]

/-- Witness for `scan_admission_criteria`: a concrete fresh handle that
the callback admits. -/
theorem scan_admission_criteria_witness :
    (wlookup (scanStep true 3 []
        ⟨6, true, true, false, false, "Editor", "Qt5Window", 2, some "ed.exe", some "d9"⟩) 6).isSome =
      callbackAdmits true
        ⟨6, true, true, false, false, "Editor", "Qt5Window", 2, some "ed.exe", some "d9"⟩ := by
  exact scan_admission_criteria true 3 []
    ⟨6, true, true, false, false, "Editor", "Qt5Window", 2, some "ed.exe", some "d9"⟩ rfl

/-! Claim theorems about the history manager. -/

theorem dequeGet_nat {l : List Nat} {c : Nat} (hc : c < l.length) :
    dequeGet l (c : Int) = .ok (l.get ⟨c, hc⟩) := by
  unfold dequeGet pyIndex
  have h1 : ¬ ((c : Int) < 0) := by omega
  have h2 : (0 : Int) ≤ (c : Int) ∧ (c : Int) < (l.length : Int) :=
    ⟨by omega, by exact_mod_cast hc⟩
  simp only [h1, if_false, if_pos h2, Int.toNat_natCast]
  rw [List.getElem?_eq_getElem hc]
  rfl

/-- C3: from a history state with cursor `c` strictly before the last
position, recording the activation of a live handle different from the
entry at the cursor truncates the sequence to `[0..c]`, appends the
handle, and puts the cursor on the new last position `c + 1`. -/
theorem record_truncates_and_appends (isWindow : Nat → Bool) (h : Nat)
    (s : HistState) (c : Nat)
    (hj : s.isJumping = false) (h0 : (h == 0) = false) (hl : isWindow h = true)
    (hci : s.currentIndex = (c : Int)) (hlen : c + 1 < s.history.length)
    (hne : s.history[c]? ≠ some h) (hcap : s.history.length ≤ s.maxHistory) :
    recordWindowActivation isWindow h s =
      .ok { s with history := s.history.take (c + 1) ++ [h],
                   currentIndex := (c : Int) + 1 } := by
  have hc' : c < s.history.length := Nat.lt_of_succ_lt hlen
  have hemp : s.history.isEmpty = false := by
    cases he : s.history with
    | nil => rw [he] at hlen; simp at hlen
    | cons a t => rfl
  have hguard : (s.isJumping || h == 0 || !isWindow h) = false := by
    rw [hj, h0, hl]; rfl
  have hcur : (s.history.get ⟨c, hc'⟩ == h) = false := by
    rw [List.getElem?_eq_getElem hc'] at hne
    have : s.history[c] ≠ h := fun e => hne (by rw [e])
    simpa [List.get_eq_getElem] using this
  have happ : appendNew h s =
      { s with history := s.history.take (c + 1) ++ [h],
               currentIndex := (c : Int) + 1 } := by
    unfold appendNew
    rw [hci]
    have ht : ((c : Int) + 1).toNat = c + 1 := by omega
    rw [ht]
    have hlen1 : (s.history.take (c + 1)).length = c + 1 := by
      rw [List.length_take]; omega
    have hmax : ((s.history.take (c + 1)).length == s.maxHistory) = false := by
      rw [hlen1]
      exact beq_eq_false_iff_ne.mpr (by omega)
    simp only [hmax, Bool.false_eq_true, if_false]
    have : ((s.history.take (c + 1) ++ [h]).length : Int) - 1 = (c : Int) + 1 := by
      rw [List.length_append, hlen1, List.length_singleton]
      omega
    rw [this]
  unfold recordWindowActivation
  rw [hguard, hemp]
  simp only [Bool.false_eq_true, if_false, hci, dequeGet_nat hc', hcur, happ]

/-- Witness for `record_truncates_and_appends`: from sequence
`[A,B,C,D] = [10,20,30,40]` with the cursor moved back to index 1,
recording live handle `E = 99` yields `[10,20,99]` with cursor 2. -/
theorem record_truncates_and_appends_witness :
    recordWindowActivation (fun _ => true) 99 ⟨[10, 20, 30, 40], 50, 1, false⟩ =
      .ok ⟨[10, 20, 99], 50, 2, false⟩ := by
  simpa using record_truncates_and_appends (fun _ => true) 99
    ⟨[10, 20, 30, 40], 50, 1, false⟩ 1 rfl rfl rfl rfl (by decide) (by decide) (by decide)

/-- C4 (code bug): with history `[A,D,B] = [1,2,3]`, handle 2 dead and
handles 1 and 3 live, `jump_to_next` from cursor 0 removes the dead
handle but retries without re-clamping the cursor, so it skips the live
handle 3 entirely and returns `False` with the cursor parked on 3
without having activated it — the pruning is not symmetric to
`jump_to_previous` and a live entry in the direction of travel is
skipped over. -/
theorem jump_next_skips_live_entry :
    jumpToNext (fun n => !(n == 2)) (fun _ => true) ⟨[1, 2, 3], 50, 0, false⟩ =
      .ok (false, ⟨[1, 3], 50, 1, false⟩)
    ∧ ((fun n => !(n == 2) : Nat → Bool) 3 = true) := by
  exact ⟨rfl, rfl⟩

/-- C5 (code bug): a crash reachable through public operations alone.
Record live handles 1, 3, 2; jump back once (all live); handle 2 then
dies; `jump_to_next` prunes it but leaves the cursor at 2 = length of
the remaining sequence `[1, 3]`; the next `record_window_activation` of
a live handle indexes the deque at that out-of-range cursor and raises
`IndexError` instead of returning normally. -/
theorem record_raises_after_unclamped_prune :
    recordWindowActivation (fun _ => true) 1 ⟨[], 50, -1, false⟩ = .ok ⟨[1], 50, 0, false⟩
    ∧ recordWindowActivation (fun _ => true) 3 ⟨[1], 50, 0, false⟩ = .ok ⟨[1, 3], 50, 1, false⟩
    ∧ recordWindowActivation (fun _ => true) 2 ⟨[1, 3], 50, 1, false⟩ = .ok ⟨[1, 3, 2], 50, 2, false⟩
    ∧ jumpToPrevious (fun _ => true) (fun _ => true) ⟨[1, 3, 2], 50, 2, false⟩ =
        .ok (true, ⟨[1, 3, 2], 50, 1, false⟩)
    ∧ jumpToNext (fun n => !(n == 2)) (fun _ => true) ⟨[1, 3, 2], 50, 1, false⟩ =
        .ok (false, ⟨[1, 3], 50, 2, false⟩)
    ∧ recordWindowActivation (fun n => !(n == 2)) 7 ⟨[1, 3], 50, 2, false⟩ = .error () := by
  exact ⟨rfl, rfl, rfl, rfl, rfl, rfl⟩

/-- C8 counterexample: with history `[1, 3]`, cursor 1, both handles
live but the activation step failing, `jump_to_previous` returns
`False` yet the state is NOT the one before the call: the cursor has
moved from 1 to 0. -/
theorem failed_jump_changes_state :
    jumpToPrevious (fun _ => true) (fun _ => false) ⟨[1, 3], 50, 1, false⟩ =
      .ok (false, ⟨[1, 3], 50, 0, false⟩)
    ∧ (⟨[1, 3], 50, 0, false⟩ : HistState) ≠ ⟨[1, 3], 50, 1, false⟩ := by
  exact ⟨rfl, by decide⟩

/-- C8 (amended): when the targeted handle is live but its activation
fails, `jump_to_previous` / `jump_to_next` return `False` with the
sequence unchanged but the cursor left at the position it moved to (the
jump is not atomic: only the sequence is untouched). -/
theorem failed_jump_keeps_sequence_moves_cursor (isW jmp : Nat → Bool)
    (s : HistState) (t : Nat) :
    (s.history.isEmpty = false → 0 < s.currentIndex →
      dequeGet s.history (s.currentIndex - 1) = .ok t →
      isW t = true → jmp t = false →
      jumpToPrevious isW jmp s =
        .ok (false, { s with currentIndex := s.currentIndex - 1 }))
    ∧ (s.history.isEmpty = false → s.currentIndex < (s.history.length : Int) - 1 →
      dequeGet s.history (s.currentIndex + 1) = .ok t →
      isW t = true → jmp t = false →
      jumpToNext isW jmp s =
        .ok (false, { s with currentIndex := s.currentIndex + 1 })) := by
  constructor
  · intro hemp hpos hget hlive hfail
    have hdec : decide (s.currentIndex ≤ 0) = false := decide_eq_false (by omega)
    unfold jumpToPrevious
    simp only [jumpToPreviousAux, hemp, hdec, Bool.or_self, Bool.false_eq_true, if_false,
      hget, hlive, Bool.not_true, jumpToWindow, hfail, Bool.and_false, Bool.or_false]
  · intro hemp hlt hget hlive hfail
    have hdec : decide (s.currentIndex ≥ (s.history.length : Int) - 1) = false :=
      decide_eq_false (by omega)
    unfold jumpToNext
    simp only [jumpToNextAux, hemp, hdec, Bool.or_self, Bool.false_eq_true, if_false,
      hget, hlive, Bool.not_true, jumpToWindow, hfail, Bool.and_false, Bool.or_false]

/-- Witness for `failed_jump_keeps_sequence_moves_cursor`: both
directions at concrete two-entry histories with failing activation. -/
theorem failed_jump_keeps_sequence_moves_cursor_witness :
    jumpToPrevious (fun _ => true) (fun _ => false) ⟨[1, 3], 50, 1, false⟩ =
      .ok (false, ⟨[1, 3], 50, 0, false⟩)
    ∧ jumpToNext (fun _ => true) (fun _ => false) ⟨[1, 3], 50, 0, false⟩ =
      .ok (false, ⟨[1, 3], 50, 1, false⟩) := by
  constructor
  · have := (failed_jump_keeps_sequence_moves_cursor (fun _ => true) (fun _ => false)
      ⟨[1, 3], 50, 1, false⟩ 1).1 rfl (by decide) rfl rfl rfl
    simpa using this
  · have := (failed_jump_keeps_sequence_moves_cursor (fun _ => true) (fun _ => false)
      ⟨[1, 3], 50, 0, false⟩ 3).2 rfl (by decide) rfl rfl rfl
    simpa using this

/-! Claim theorems about search and tag editing. -/

theorem foldl_count (p : String → Bool) :
    ∀ (l : List String) (n : Nat),
      l.foldl (fun n k => if p k then n + 1 else n) n = n + l.countP p := by
  intro l
  induction l with
  | nil => intro n; simp
  | cons a t ih =>
    intro n
    simp only [List.foldl_cons, List.countP_cons]
    by_cases hp : p a = true
    · simp [hp, ih]
      omega
    · simp [hp, ih]

theorem searchWindows_go (pin : String → String) (keys : List String) :
    ∀ (ws : List WindowInfo) (acc : List SearchResult),
      ws.foldl (fun results w =>
        let match_count := keys.foldl (fun n k => if matchesLowered pin k w then n + 1 else n) 0
        if match_count > 0 then results ++ [⟨w, match_count⟩] else results) acc
      = acc ++ ws.filterMap (fun w =>
          let mc := keys.countP (fun k => matchesLowered pin k w)
          if 0 < mc then some ⟨w, mc⟩ else none) := by
  intro ws
  induction ws with
  | nil => intro acc; simp
  | cons w rest ih =>
    intro acc
    have hcnt : keys.foldl (fun n k => if matchesLowered pin k w then n + 1 else n) 0 =
        keys.countP (fun k => matchesLowered pin k w) := by
      simpa using foldl_count (fun k => matchesLowered pin k w) keys 0
    by_cases hmc : 0 < keys.countP (fun k => matchesLowered pin k w)
    · simp only [List.foldl_cons, List.filterMap_cons, hcnt, hmc, gt_iff_lt, if_true,
        ite_true]
      rw [ih]
      simp
    · simp only [List.foldl_cons, List.filterMap_cons, hcnt, gt_iff_lt, if_neg hmc]
      exact ih acc

theorem searchWindows_eq_filterMap (pin : String → String) (ws : List WindowInfo)
    (keys : List String) :
    searchWindows pin ws keys =
      ws.filterMap (fun w =>
        let mc := (keys.map pyLower).countP (fun k => matchesLowered pin k w)
        if 0 < mc then some ⟨w, mc⟩ else none) := by
  unfold searchWindows
  exact (searchWindows_go pin (keys.map pyLower) ws []).trans (by simp)

/-- C6: `search_windows` returns exactly the records for which a
positive number of the input keywords matches (a keyword matches iff it
is a case-insensitively lowered substring of the literal title, the
literal tags, or the phonetic transliterations of either), each paired
with that count as `match_count`; records matching no keyword are
excluded, and the empty keyword list yields the empty result list. -/
theorem search_windows_spec (pinyinGet : String → String) (ws : List WindowInfo)
    (kws : List String) :
    searchWindows pinyinGet ws kws =
      ws.filterMap (fun w =>
        let mc := kws.countP (fun kw => keywordMatches pinyinGet kw w)
        if 0 < mc then some ⟨w, mc⟩ else none)
    ∧ searchWindows pinyinGet ws [] = [] := by
  constructor
  · rw [searchWindows_eq_filterMap]
    simp only [List.countP_map]
    rfl
  · rw [searchWindows_eq_filterMap]
    simp

/-- C9 (code bug): confirming the tag-edit dialog of
`window_actions.edit_window_tags` can never succeed: the function calls
`window_index.update_window_tags(window.handle, tags)`, but
`WindowIndexManager` defines no `update_window_tags` attribute (and the
`WindowInfo` dataclass has no `handle` field), so the call raises
`AttributeError`, which the surrounding `try/except` converts to a
returned `False`. -/
theorem edit_window_tags_always_fails :
    editWindowTags true = false
    ∧ windowIndexManagerAttrs.contains "update_window_tags" = false
    ∧ windowInfoFieldNames.contains "handle" = false := by
  exact ⟨rfl, rfl, rfl⟩

/-- C10: the tag dialog of the search window leaves the record's tags
unchanged when confirmed with empty text; the edit is applied exactly
when the dialog is confirmed with non-empty text, so a non-empty tag
can never be reset to the empty string through this dialog. -/
theorem tag_dialog_empty_text_keeps_tags (w : WindowInfo) (ok : Bool) (text : String) :
    openTagInputDialog w ok "" = w
    ∧ (w.tags ≠ "" → (openTagInputDialog w ok text).tags ≠ "")
    ∧ (ok = true → text ≠ "" → openTagInputDialog w ok text = { w with tags := text }) := by
  refine ⟨?_, ?_, ?_⟩
  · simp [openTagInputDialog]
  · intro hw
    by_cases htext : text = ""
    · simp [openTagInputDialog, htext, hw]
    · cases ok
      · simpa [openTagInputDialog] using hw
      · simp only [openTagInputDialog]
        have : (text == "") = false := beq_eq_false_iff_ne.mpr htext
        simp [this, htext]
  · intro hok htext
    have : (text == "") = false := beq_eq_false_iff_ne.mpr htext
    simp [openTagInputDialog, hok, this]

/-- Witness for `tag_dialog_empty_text_keeps_tags` at a concrete
record with a non-empty tag. -/
theorem tag_dialog_empty_text_keeps_tags_witness :
    openTagInputDialog ⟨1, "t", 0, "p", some "d", true, false, 0, "old"⟩ true "" =
      ⟨1, "t", 0, "p", some "d", true, false, 0, "old"⟩
    ∧ (openTagInputDialog ⟨1, "t", 0, "p", some "d", true, false, 0, "old"⟩ true "x").tags ≠ "" := by
  refine ⟨(tag_dialog_empty_text_keeps_tags ⟨1, "t", 0, "p", some "d", true, false, 0, "old"⟩
      true "").1,
    (tag_dialog_empty_text_keeps_tags ⟨1, "t", 0, "p", some "d", true, false, 0, "old"⟩
      true "x").2.1 (by decide)⟩

end FlashToggle
